import Mathlib

/-!
Verification of the GMH-3200 serial thermometer daemon (`gmh_3200.py`).

The development shallowly embeds the decoding functions (`value`,
`GMHProtocol.temp_decode`, `GMHProtocol.crc`) and the stateful handlers
(`update`, `connectionLost`, `processBinary`) of the source file.  Bytes are
natural numbers (< 256 where a Python `bytes` object guarantees it), Python
machine-independent integers are `ℕ`/`ℤ` with the source's masks kept
explicit, and Python float division is modelled by exact division in `ℚ`
(both decoding pipelines in the source perform numerically identical float
operations, so exact-rational agreement is the faithful rendering of the
facts proved here: signs, thresholds, and pipeline agreement).
-/

namespace GMH

/-- Python `(~b) & 0xFF` on a non-negative int `b`: `(-b-1) mod 256 = 255 - b % 256`.
For a byte (`b < 256`) this is `255 - b`, which is also how the source's
`0xFF - byte3` reads. -/
def invByte (b : ℕ) : ℕ := 255 - b % 256

/-- `GMHProtocol.ERROR_CODES`: the static fault-code catalogue of the source. -/
def ERROR_CODES : List (ℤ × String) :=
  [(16352, "Measuring range overrun"),
   (16353, "Measuring range underrun"),
   (16362, "Calculation not possible"),
   (16363, "System error"),
   (16364, "Battery empty"),
   (16365, "Sensor defective")]

/-- `self.ERROR_CODES.get(error_code, "Unknown hardware error")` from
`temp_decode`: a total lookup with a generic fallback. -/
def error_get (c : ℤ) : String :=
  (ERROR_CODES.lookup c).getD "Unknown hardware error"

/-- Result of decoding a reply frame.  The source signals a device fault by
raising `GMHException(msg)` from `temp_decode`; the fault constructor carries
the numeric code the source computes alongside the message it puts in the
exception. -/
inductive Reading where
  | val (q : ℚ)
  | fault (code : ℤ) (msg : String)
deriving DecidableEq

/-- `GMHProtocol.temp_decode` (src/gmh_3200.py:132-154), bit for bit.
`struct.unpack_from(">BBxBBx", response, 3)` yields
`response[3], response[4], response[6], response[7]`.
The final `value = (payload + 0x02000000) / (10**exponent)` is Python float
division; it is modelled as exact division in `ℚ` (the exponent enters via
`zpow`, so negative exponents divide rather than truncate). -/
def temp_decode (response : List ℕ) : Reading :=
  let b3 := response.getD 3 0
  let b4 := response.getD 4 0
  let b6 := response.getD 6 0
  let b7 := response.getD 7 0
  let high_word := ((invByte b3) <<< 8) ||| b4
  let low_word := ((invByte b6) <<< 8) ||| b7
  let u32 := (high_word <<< 16) ||| low_word
  let exponent : ℤ := (((invByte b3) >>> 3 : ℕ) : ℤ) - 15
  let payload := u32 &&& 0x07FFFFFF
  if 125554432 ≤ payload then
    let error_code : ℤ := (payload : ℤ) - 0x02000000 - 100000000
    .fault error_code (error_get error_code)
  else
    let signed : ℤ := if payload &&& 0x04000000 ≠ 0 then (payload : ℤ) - 0x08000000 else (payload : ℤ)
    .val (((signed + 0x02000000 : ℤ) : ℚ) / (10 : ℚ) ^ exponent)

/-- Loop body of `GMHProtocol.crc`: one shift-and-conditionally-xor round on
the 16-bit accumulator. -/
def crc_step (u : ℕ) : ℕ :=
  if u &&& 0x8000 ≠ 0 then ((u <<< 1) ^^^ 0x700) &&& 0xFFFF else (u <<< 1) &&& 0xFFFF

/-- `GMHProtocol.crc` (src/gmh_3200.py:156-166): seed `(byte1 << 8) + byte2`,
run 16 rounds, return the complemented high byte `(~(acc >> 8)) & 0xFF`. -/
def crc (byte1 byte2 : ℕ) : ℕ :=
  invByte ((crc_step^[16] ((byte1 <<< 8) + byte2)) >>> 8)

/-- The checksum algorithm exactly as §4.1 of the spec words it: seed
`acc = (addr << 8) | data` (the spec writes `|` where the source writes `+`),
sixteen rounds of shift / conditional xor with `0x0700` masked to 16 bits,
result `(~(acc >> 8)) & 0xFF`. -/
def checksum_spec (addr data : ℕ) : ℕ :=
  let step := fun acc =>
    if acc &&& 0x8000 ≠ 0 then ((acc <<< 1) ^^^ 0x0700) &&& 0xFFFF else (acc <<< 1) &&& 0xFFFF
  invByte ((step^[16] ((addr <<< 8) ||| data)) >>> 8)

/-- The 27-bit payload field exactly as `temp_decode` computes it (the
subexpression of the source ending in `u32 & 0x07FFFFFF`). -/
def frame_payload (r : List ℕ) : ℕ :=
  ((((invByte (r.getD 3 0)) <<< 8 ||| r.getD 4 0) <<< 16) |||
    ((invByte (r.getD 6 0)) <<< 8 ||| r.getD 7 0)) &&& 0x07FFFFFF

example : crc 254 0 = 0x3D := by decide
example : crc 253 0 = 0x02 := by decide

/-- `decode_u16` from the module-level `value`: `(255 - bytea) << 8 | byteb`
(its argument is a byte of a Python `bytes` object, hence `< 256`, so the
`ℕ`-subtraction matches Python's). -/
def decode_u16 (bytea byteb : ℕ) : ℕ := ((255 - bytea) <<< 8) ||| byteb

/-- `decode_u32` from the module-level `value`: `(inputa << 16) | inputb`. -/
def decode_u32 (inputa inputb : ℕ) : ℕ := (inputa <<< 16) ||| inputb

/-- Models CPython `sys.getsizeof` on a non-negative `int` (64-bit build):
28 bytes for at most one 30-bit digit, 32 for two, at least 36 beyond that.
Only the comparison with 32 is ever used by `crop_u32`. -/
def getsizeof (n : ℕ) : ℕ :=
  if n < 2 ^ 30 then 28 else if n < 2 ^ 60 then 32 else 36

/-- `crop_u32` from the module-level `value`.  Note the source tests
`sys.getsizeof(value) > 32` — the *object header size in bytes*, not the bit
width — so the 32-bit mask is applied only to integers of three or more
30-bit digits, i.e. `≥ 2^60`; every value this protocol produces is far
smaller and passes through unmasked. -/
def crop_u32 (v : ℕ) : ℕ :=
  if 32 < getsizeof v then v &&& 0x00000000FFFFFFFF else v

/-- `to_signed32` from the module-level `value`:
`value &= 0xFFFFFFFF; (value ^ 0x80000000) - 0x80000000`. -/
def to_signed32 (v : ℕ) : ℤ :=
  (((v &&& 0xFFFFFFFF) ^^^ 0x80000000 : ℕ) : ℤ) - 0x80000000

/-- Result of the module-level `value` function.  Its fault branch executes
`return self.error_msg(error_num)`, but `self` is an undefined name inside a
module-level function, so reaching that branch raises `NameError` at runtime;
`errorBranch` records that the branch was reached and the `error_num` it had
computed.  `noValue` is the `response == ""` guard's return. -/
inductive ValueResult where
  | noValue (msg : String)
  | temp (q : ℚ)
  | errorBranch (code : ℤ)
deriving DecidableEq

/-- The module-level `value` function (src/gmh_3200.py:17-70).  The guard
`response == ""` compares a `bytes` object with a `str` in Python 3 and is
therefore always false — it is kept as the dead branch it is.  Float division
is modelled exactly in `ℚ` as in `temp_decode`. -/
def value (response : List ℕ) : ValueResult :=
  if False then .noValue "Error: No value read."
  else
    let byte3 := response.getD 3 0
    let byte4 := response.getD 4 0
    let byte6 := response.getD 6 0
    let byte7 := response.getD 7 0
    let u16_integer1 := decode_u16 byte3 byte4
    let u16_integer2 := decode_u16 byte6 byte7
    let u32_integer := decode_u32 u16_integer1 u16_integer2
    let float_pos : ℤ := (((255 - byte3) >>> 3 : ℕ) : ℤ) - 15
    let u32_cropped := crop_u32 (u32_integer &&& 0x07FFFFFF)
    if u32_cropped < 100000000 + 0x2000000 then
      let compare := crop_u32 (u32_cropped &&& 0x04000000)
      let u32_ext := if 0x04000000 = compare then crop_u32 (u32_cropped ||| 0xF8000000) else u32_cropped
      let u32_mant := crop_u32 (u32_ext + 0x02000000)
      let i32_integer := to_signed32 u32_mant
      .temp ((i32_integer : ℚ) / (10 : ℚ) ^ float_pos)
    else
      .errorBranch ((u32_cropped : ℤ) - 0x02000000 - 100000000)

/-- Arithmetic reading of the 27-bit payload: shifts as multiplication by
powers of two, the `& 0x07FFFFFF` mask as `% 2^27`, byte inversion as
subtraction from 255. -/
def payload_arith (b3 b4 b6 b7 : ℕ) : ℕ :=
  (((255 - b3) * 256 + b4) * 65536 + ((255 - b6) * 256 + b7)) % 2 ^ 27

/-- Arithmetic reading of the exponent field: `((~b3 & 0xFF) >> 3) - 15` as
integer division by 8. -/
def exponent_arith (b3 : ℕ) : ℤ := (((255 - b3) / 8 : ℕ) : ℤ) - 15

/-- Arithmetic reading of the sign-extension step: the test
`payload & 0x04000000` is extraction of bit 26, and when it is set
`0x08000000` is subtracted. -/
def sign_extended (p : ℕ) : ℤ :=
  if p / 2 ^ 26 % 2 = 1 then (p : ℤ) - 0x08000000 else (p : ℤ)

/-- The decoded temperature as a function of payload and exponent:
`(sign-extended payload + 0x02000000) / 10^exponent`, exact division. -/
def reading_of (p : ℕ) (e : ℤ) : ℚ :=
  ((sign_extended p + 0x02000000 : ℤ) : ℚ) / (10 : ℚ) ^ e

/-- Arithmetic counterpart of `temp_decode`: same branches, all bit
operations replaced by their `%`, `/`, `*`, `+` readings. -/
def temp_decode_arith (r : List ℕ) : Reading :=
  let p := payload_arith (r.getD 3 0) (r.getD 4 0) (r.getD 6 0) (r.getD 7 0)
  if 125554432 ≤ p then
    .fault ((p : ℤ) - 0x02000000 - 100000000) (error_get ((p : ℤ) - 0x02000000 - 100000000))
  else
    .val (reading_of p (exponent_arith (r.getD 3 0)))

/-- Arithmetic counterpart of the module-level `value` on a well-formed
frame: same two live branches, with `value`'s own (larger) threshold
`100000000 + 0x2000000`. -/
def value_arith (r : List ℕ) : ValueResult :=
  let p := payload_arith (r.getD 3 0) (r.getD 4 0) (r.getD 6 0) (r.getD 7 0)
  if p < 100000000 + 0x2000000 then
    .temp (reading_of p (exponent_arith (r.getD 3 0)))
  else
    .errorBranch ((p : ℤ) - 0x02000000 - 100000000)

/-- Bit `i` of `a * 2^k + b` when `b` occupies only the low `k` bits: the low
bits come from `b`, the high bits from `a`. -/
theorem testBit_mulPow_add (a b k i : ℕ) (hb : b < 2 ^ k) :
    (a * 2 ^ k + b).testBit i = if i < k then b.testBit i else a.testBit (i - k) := by
  by_cases h : i < k
  · rw [if_pos h, Nat.testBit_to_div_mod, Nat.testBit_to_div_mod]
    have e0 : a * 2 ^ k + b = 2 * (a * 2 ^ (k - i - 1)) * 2 ^ i + b := by
      have ek : (2 : ℕ) ^ k = 2 ^ (k - i - 1 + 1 + i) := by congr 1; omega
      rw [ek, pow_add, pow_succ]; ring
    have e1 : (2 * (a * 2 ^ (k - i - 1)) * 2 ^ i + b) / 2 ^ i
        = b / 2 ^ i + 2 * (a * 2 ^ (k - i - 1)) := by
      rw [Nat.add_comm]; exact Nat.add_mul_div_right _ _ (Nat.two_pow_pos i)
    rw [e0, e1]
    have : (b / 2 ^ i + 2 * (a * 2 ^ (k - i - 1))) % 2 = b / 2 ^ i % 2 := by omega
    rw [this]
  · rw [if_neg h, Nat.testBit_to_div_mod, Nat.testBit_to_div_mod]
    have e1 : (a * 2 ^ k + b) / 2 ^ i = a / 2 ^ (i - k) := by
      have ei : (2 : ℕ) ^ i = 2 ^ k * 2 ^ (i - k) := by rw [← pow_add]; congr 1; omega
      rw [ei, ← Nat.div_div_eq_div_mul]
      congr 1
      rw [Nat.add_comm, Nat.add_mul_div_right _ _ (Nat.two_pow_pos k),
        Nat.div_eq_of_lt hb, Nat.zero_add]
    rw [e1]

/-- Or-ing a left-shifted value with one that fits below the shift is
addition. -/
theorem shiftLeft_lor_eq_add (a b k : ℕ) (hb : b < 2 ^ k) :
    (a <<< k) ||| b = a * 2 ^ k + b := by
  apply Nat.eq_of_testBit_eq
  intro i
  rw [Nat.testBit_or, Nat.testBit_shiftLeft, testBit_mulPow_add a b k i hb]
  by_cases h : i < k
  · rw [if_pos h]
    simp [show ¬(i ≥ k) from by omega]
  · rw [if_neg h]
    have h2 : b.testBit i = false :=
      Nat.testBit_lt_two_pow (lt_of_lt_of_le hb (Nat.pow_le_pow_right (by norm_num) (by omega)))
    simp [show i ≥ k from by omega, h2]

/-- Xor with `2^k` sets the (clear) bit `k`: addition of `2^k`. -/
theorem xor_two_pow_of_lt (r k : ℕ) (h : r < 2 ^ k) : r ^^^ 2 ^ k = r + 2 ^ k := by
  apply Nat.eq_of_testBit_eq
  intro i
  rw [Nat.testBit_xor, show r + 2 ^ k = 1 * 2 ^ k + r from by ring,
    testBit_mulPow_add 1 r k i h, Nat.testBit_two_pow]
  by_cases hik : i < k
  · simp [hik, show ¬(k = i) from by omega]
  · by_cases hik2 : i = k
    · subst hik2
      rw [if_neg hik, Nat.sub_self, Nat.testBit_lt_two_pow h]
      simp [Nat.testBit_one_zero]
    · have h2 : r.testBit i = false :=
        Nat.testBit_lt_two_pow (lt_of_lt_of_le h (Nat.pow_le_pow_right (by norm_num) (by omega)))
      have h3 : (1 : ℕ).testBit (i - k) = false := by
        rw [← Bool.not_eq_true, Nat.testBit_one_eq_true_iff_self_eq_zero]
        omega
      simp [hik, hik2, h2, h3, show ¬k = i from by omega]

/-- Xor with `2^k` clears the (set) bit `k`: subtraction of `2^k`. -/
theorem add_two_pow_xor (r k : ℕ) (h : r < 2 ^ k) : (2 ^ k + r) ^^^ 2 ^ k = r := by
  rw [Nat.add_comm, ← xor_two_pow_of_lt r k h, Nat.xor_assoc, Nat.xor_self, Nat.xor_zero]

/-- `p &&& 2^k` extracts bit `k`. -/
theorem and_two_pow_eq (p k : ℕ) : p &&& 2 ^ k = if p.testBit k then 2 ^ k else 0 := by
  apply Nat.eq_of_testBit_eq
  intro i
  rw [Nat.testBit_and, Nat.testBit_two_pow]
  by_cases h : p.testBit k
  · by_cases hik : k = i
    · subst hik; simp [h, Nat.testBit_two_pow]
    · simp [h, hik, Nat.testBit_two_pow]
  · by_cases hik : k = i
    · subst hik; simp [h]
    · simp [h, hik]

/-- The Python truthiness test `payload & 0x04000000` reads bit 26, i.e.
`payload / 2^26 % 2`. -/
theorem and_two_pow_ne_zero_iff (p k : ℕ) : p &&& 2 ^ k ≠ 0 ↔ p / 2 ^ k % 2 = 1 := by
  rw [and_two_pow_eq]
  have ht : p.testBit k = decide (p / 2 ^ k % 2 = 1) := Nat.testBit_to_div_mod
  by_cases hd : p / 2 ^ k % 2 = 1
  · rw [if_pos (by rw [ht]; exact decide_eq_true hd)]
    simp [hd, (Nat.two_pow_pos k).ne']
  · rw [if_neg (by rw [ht]; simp [hd])]
    simp [hd]

/-- The equality test `compare == 0x04000000` of the module-level `value`
also reads bit 26. -/
theorem and_two_pow_eq_self_iff (p k : ℕ) : p &&& 2 ^ k = 2 ^ k ↔ p / 2 ^ k % 2 = 1 := by
  rw [and_two_pow_eq]
  have ht : p.testBit k = decide (p / 2 ^ k % 2 = 1) := Nat.testBit_to_div_mod
  by_cases hd : p / 2 ^ k % 2 = 1
  · rw [if_pos (by rw [ht]; exact decide_eq_true hd)]
    simp [hd]
  · rw [if_neg (by rw [ht]; simp [hd])]
    simp [hd, (Nat.two_pow_pos k).ne]

/-- Bytes of a frame delivered by the serial transport are below 256. -/
theorem getD_lt_of_forall (r : List ℕ) (hb : ∀ b ∈ r, b < 256) (i : ℕ)
    (h : i < r.length) : r.getD i 0 < 256 := by
  have hm : r.getD i 0 ∈ r := by
    rw [List.getD_eq_getElem _ _ h]
    exact List.getElem_mem h
  exact hb _ hm

/-- `crop_u32` is the identity on every integer of fewer than three 30-bit
digits (in particular on everything the decoder can produce). -/
theorem crop_u32_eq_self (v : ℕ) (h : v < 2 ^ 60) : crop_u32 v = v := by
  unfold crop_u32 getsizeof
  by_cases h30 : v < 2 ^ 30
  · rw [if_pos h30]; norm_num
  · rw [if_neg h30, if_pos h]; norm_num

/-- `to_signed32` is reduction mod `2^32` followed by two's-complement
sign interpretation. -/
theorem to_signed32_spec (v : ℕ) :
    to_signed32 v = if v % 2 ^ 32 < 2 ^ 31 then ((v % 2 ^ 32 : ℕ) : ℤ)
      else ((v % 2 ^ 32 : ℕ) : ℤ) - 2 ^ 32 := by
  unfold to_signed32
  rw [show (0xFFFFFFFF : ℕ) = 2 ^ 32 - 1 from by norm_num,
    Nat.and_pow_two_sub_one_eq_mod, show (0x80000000 : ℕ) = 2 ^ 31 from by norm_num]
  have hm32 : v % 2 ^ 32 < 2 ^ 32 := Nat.mod_lt _ (by norm_num)
  by_cases h : v % 2 ^ 32 < 2 ^ 31
  · rw [if_pos h, xor_two_pow_of_lt _ 31 h]
    push_cast; ring
  · rw [if_neg h, show v % 2 ^ 32 = 2 ^ 31 + (v % 2 ^ 32 - 2 ^ 31) from by omega,
      add_two_pow_xor _ 31 (by omega)]
    have : (2 : ℕ) ^ 31 ≤ v % 2 ^ 32 := by omega
    push_cast [Nat.cast_sub this]
    ring

/-- The byte-assembly part of both decoders, read arithmetically: the payload
is the low 27 bits of `(inv b3, b4, inv b6, b7)` assembled big-endian. -/
theorem frame_payload_eq (r : List ℕ) (hlen : r.length = 9) (hb : ∀ b ∈ r, b < 256) :
    frame_payload r
      = payload_arith (r.getD 3 0) (r.getD 4 0) (r.getD 6 0) (r.getD 7 0) := by
  have h3 : r.getD 3 0 < 256 := getD_lt_of_forall r hb 3 (by omega)
  have h4 : r.getD 4 0 < 256 := getD_lt_of_forall r hb 4 (by omega)
  have h6 : r.getD 6 0 < 256 := getD_lt_of_forall r hb 6 (by omega)
  have h7 : r.getD 7 0 < 256 := getD_lt_of_forall r hb 7 (by omega)
  have hb4 : r.getD 4 0 < 2 ^ 8 := by omega
  have hb7 : r.getD 7 0 < 2 ^ 8 := by omega
  have hlow : (255 - r.getD 6 0) * 2 ^ 8 + r.getD 7 0 < 2 ^ 16 := by
    have : 255 - r.getD 6 0 ≤ 255 := by omega
    omega
  unfold frame_payload payload_arith invByte
  rw [Nat.mod_eq_of_lt h3, Nat.mod_eq_of_lt h6]
  rw [shiftLeft_lor_eq_add _ _ 8 hb4, shiftLeft_lor_eq_add _ _ 8 hb7,
    shiftLeft_lor_eq_add _ _ 16 hlow,
    show (0x07FFFFFF : ℕ) = 2 ^ 27 - 1 from by norm_num,
    Nat.and_pow_two_sub_one_eq_mod]
  norm_num

/-- `temp_decode` agrees with its arithmetic counterpart on every well-formed
9-byte frame. -/
theorem temp_decode_eq_arith (r : List ℕ) (hlen : r.length = 9)
    (hb : ∀ b ∈ r, b < 256) : temp_decode r = temp_decode_arith r := by
  have h3 : r.getD 3 0 < 256 := getD_lt_of_forall r hb 3 (by omega)
  have h4 : r.getD 4 0 < 256 := getD_lt_of_forall r hb 4 (by omega)
  have h6 : r.getD 6 0 < 256 := getD_lt_of_forall r hb 6 (by omega)
  have h7 : r.getD 7 0 < 256 := getD_lt_of_forall r hb 7 (by omega)
  have hp := frame_payload_eq r hlen hb
  unfold frame_payload at hp
  unfold temp_decode temp_decode_arith
  simp only [hp]
  rw [show (0x04000000 : ℕ) = 2 ^ 26 from by norm_num]
  simp only [and_two_pow_ne_zero_iff]
  unfold invByte
  rw [Nat.mod_eq_of_lt h3, Nat.shiftRight_eq_div_pow]
  simp only [reading_of, sign_extended, exponent_arith]

/-- The sign-extension pipeline of the module-level `value`
(`compare`/or-with-`0xF8000000`/add-mantissa-bit/`to_signed32`) computes the
same signed mantissa as `temp_decode`'s subtract-`0x08000000`. -/
theorem value_pipeline (p : ℕ) (hp : p < 2 ^ 27) :
    to_signed32 (crop_u32
        ((if 0x04000000 = crop_u32 (p &&& 0x04000000) then crop_u32 (p ||| 0xF8000000) else p)
          + 0x02000000))
      = sign_extended p + 0x02000000 := by
  have hand : p &&& 0x04000000 ≤ 0x04000000 := Nat.and_le_right
  have hcrop1 : crop_u32 (p &&& 0x04000000) = p &&& 0x04000000 :=
    crop_u32_eq_self _ (by omega)
  rw [hcrop1]
  have hcond : (0x04000000 = p &&& 0x04000000) ↔ p / 2 ^ 26 % 2 = 1 := by
    rw [eq_comm, show (0x04000000 : ℕ) = 2 ^ 26 from by norm_num, and_two_pow_eq_self_iff]
  unfold sign_extended
  by_cases hbit : p / 2 ^ 26 % 2 = 1
  · rw [if_pos (hcond.mpr hbit), if_pos hbit]
    have hlor : p ||| 0xF8000000 = 31 * 2 ^ 27 + p := by
      rw [Nat.lor_comm, show (0xF8000000 : ℕ) = 31 <<< 27 from by decide,
        shiftLeft_lor_eq_add 31 p 27 hp]
    rw [hlor, crop_u32_eq_self (31 * 2 ^ 27 + p) (by omega),
      crop_u32_eq_self (31 * 2 ^ 27 + p + 0x02000000) (by omega), to_signed32_spec]
    have hge : 2 ^ 26 ≤ p := by omega
    by_cases hlt : p < 0x06000000
    · have hv : (31 * 2 ^ 27 + p + 0x02000000) % 2 ^ 32 = 31 * 2 ^ 27 + p + 0x02000000 :=
        Nat.mod_eq_of_lt (by omega)
      rw [hv, if_neg (by omega)]
      push_cast
      omega
    · have hv : (31 * 2 ^ 27 + p + 0x02000000) % 2 ^ 32
          = 31 * 2 ^ 27 + p + 0x02000000 - 2 ^ 32 := by omega
      rw [hv, if_pos (by omega)]
      omega
  · rw [if_neg (fun hc => hbit (hcond.mp hc)), if_neg hbit]
    have hp26 : p < 2 ^ 26 := by omega
    rw [crop_u32_eq_self _ (by omega), to_signed32_spec]
    have hv : (p + 0x02000000) % 2 ^ 32 = p + 0x02000000 := Nat.mod_eq_of_lt (by omega)
    rw [hv, if_pos (by omega)]
    push_cast
    ring

/-- The module-level `value` agrees with its arithmetic counterpart on every
well-formed 9-byte frame. -/
theorem value_eq_arith (r : List ℕ) (hlen : r.length = 9) (hb : ∀ b ∈ r, b < 256) :
    value r = value_arith r := by
  have h3 : r.getD 3 0 < 256 := getD_lt_of_forall r hb 3 (by omega)
  have h4 : r.getD 4 0 < 256 := getD_lt_of_forall r hb 4 (by omega)
  have h6 : r.getD 6 0 < 256 := getD_lt_of_forall r hb 6 (by omega)
  have h7 : r.getD 7 0 < 256 := getD_lt_of_forall r hb 7 (by omega)
  have hb4 : r.getD 4 0 < 2 ^ 8 := by omega
  have hb7 : r.getD 7 0 < 2 ^ 8 := by omega
  have hlow : (255 - r.getD 6 0) * 2 ^ 8 + r.getD 7 0 < 2 ^ 16 := by
    have : 255 - r.getD 6 0 ≤ 255 := by omega
    omega
  have hp27 : payload_arith (r.getD 3 0) (r.getD 4 0) (r.getD 6 0) (r.getD 7 0) < 2 ^ 27 := by
    unfold payload_arith
    exact Nat.mod_lt _ (by norm_num)
  have hP : (((255 - r.getD 3 0) * 2 ^ 8 + r.getD 4 0) * 2 ^ 16
        + ((255 - r.getD 6 0) * 2 ^ 8 + r.getD 7 0)) % 2 ^ 27
      = payload_arith (r.getD 3 0) (r.getD 4 0) (r.getD 6 0) (r.getD 7 0) := by
    unfold payload_arith
    norm_num
  simp only [value, value_arith, decode_u16, decode_u32]
  rw [if_neg not_false]
  rw [shiftLeft_lor_eq_add _ _ 8 hb4, shiftLeft_lor_eq_add _ _ 8 hb7,
    shiftLeft_lor_eq_add _ _ 16 hlow,
    show (0x07FFFFFF : ℕ) = 2 ^ 27 - 1 from by norm_num,
    Nat.and_pow_two_sub_one_eq_mod, hP,
    crop_u32_eq_self _ (lt_trans hp27 (by norm_num))]
  rw [value_pipeline _ hp27, Nat.shiftRight_eq_div_pow]
  simp only [reading_of, exponent_arith]

/-- A value stored in the shared state dictionary `obj`: the temperature
slots hold the integer `0` at start-up, a Python float after a successful
decode, the string `"nan"` after a disconnect, and `None` when a swallowed
decode error made `temp_decode` return nothing. -/
inductive PyVal where
  | int (n : ℤ)
  | float (q : ℚ)
  | str (s : String)
  | none
deriving DecidableEq

/-- The fields of the shared state dictionary
`obj = {"hw_connected": 0, "status": "----", "temperatureA": 0, "temperatureB": 0}`
that the protocol mutates (`DeviceState` in the spec). -/
structure Obj where
  hw_connected : ℕ
  status : String
  temperatureA : PyVal
  temperatureB : PyVal
deriving DecidableEq

/-- One entry of `self.commands`:
`{"cmd": k, "source": "itself", "status": "status"}`. -/
structure Cmd where
  cmd : List ℕ
  source : String
  status : String
deriving DecidableEq

/-- The mutable state of a `GMHProtocol` instance relevant to the claims:
its command queue and the shared `obj` dictionary. -/
structure ProtoState where
  commands : List Cmd
  object : Obj
deriving DecidableEq

/-- `self.status_commands`: the two hard-coded 3-byte read requests
(channel A = address 254, channel B = address 253). -/
def status_commands : List (List ℕ) := [[0xfe, 0x00, 0x3d], [0xfd, 0x00, 0x02]]

/-- The dict literal appended for each status command in `update`. -/
def status_entry (k : List ℕ) : Cmd := ⟨k, "itself", "status"⟩

/-- The disconnected sentinel the spec calls NaN: the source stores the
string `"nan"`. -/
def nan_sentinel : PyVal := .str "nan"

/-- `GMHProtocol.update` (src/gmh_3200.py:187-199).  `self.message(...)` is a
non-blocking handoff of the queue head to the serial transport; it mutates
neither the queue nor `obj`, so the connected-and-non-empty branch leaves the
state unchanged.  In every other case (queue empty, or not connected) the
`else` branch appends one entry per status command. -/
def update (s : ProtoState) : ProtoState :=
  if s.commands.length ≠ 0 ∧ s.object.hw_connected ≠ 0 then s
  else { s with commands := s.commands ++ status_commands.map status_entry }

/-- `GMHProtocol.connectionLost` (src/gmh_3200.py:174-180).  The
`super().connectionLost(...)` call lands in the daemon library that is not
part of this tree; modelled from the spec: transport teardown is the
collaborator's business and does not touch the four `obj` fields, which the
remaining four source lines then set unconditionally. -/
def connectionLost (s : ProtoState) : ProtoState :=
  { s with object :=
    { s.object with
        hw_connected := 0
        status := "----"
        temperatureA := .str "nan"
        temperatureB := .str "nan" } }

/-- `temp_decode` as called through its `@catch` decorator.  Modelled from
the spec: `catch` (daemon library, not in this tree) implements the
recoverable-per-reply failure semantics — it logs the raised exception and
makes the wrapped call return `None`, so a fault frame yields `None` and a
value frame yields the float. -/
def temp_decode_caught (response : List ℕ) : PyVal :=
  match temp_decode response with
  | .val q => .float q
  | .fault _ _ => .none

/-- `GMHProtocol.processBinary` (src/gmh_3200.py:201-213): decode the reply,
store the result into the temperature slot selected by the reply's own
leading address byte (254 → A, 253 → B, anything else → discard), then
`self.commands.pop(0)`.  `pop(0)` raises `IndexError` on an empty queue
(and `processBinary` has no `@catch`), so the embedding is faithful only for
a non-empty queue; every theorem about it assumes that. -/
def processBinary (s : ProtoState) (bstring : List ℕ) : ProtoState :=
  let result := temp_decode_caught bstring
  let ob :=
    if bstring.getD 0 0 = 254 then { s.object with temperatureA := result }
    else if bstring.getD 0 0 = 253 then { s.object with temperatureB := result }
    else s.object
  { s with object := ob, commands := s.commands.tail }

/-- Frame with payload `125554432`, the exact fault threshold of
`temp_decode` (bytes 0xF8 0x7B / 0x30 0x00 at positions 3,4,6,7). -/
def frame_threshold : List ℕ := [254, 0, 0, 0xF8, 0x7B, 0, 0x30, 0x00, 0]

/-- Frame encoding device fault code 16364 ("battery empty"):
payload `16364 + 0x02000000 + 100000000`. -/
def frame_battery : List ℕ := [254, 0, 0, 0xF8, 0xF6, 0, 0xDF, 0xEC, 0]

/-- Frame encoding the unknown fault code 99999. -/
def frame_unknown : List ℕ := [254, 0, 0, 0xF8, 0xF7, 0, 0x98, 0x9F, 0]

/-- Frame with payload `0x07000000`: sign bit (bit 26) set, yet the decoded
value is positive. -/
def frame_bigneg : List ℕ := [254, 0, 0, 0xF8, 0x00, 0, 0xFF, 0x00, 0]

/-- Frame with payload `0x04000000`: sign bit set and the decoded value is
negative. -/
def frame_neg : List ℕ := [254, 0, 0, 0xFB, 0x00, 0, 0xFF, 0x00, 0]

/-- Frame with payload `0`, addressed to neither channel (leading byte 100). -/
def frame_other : List ℕ := [100, 0, 0, 0xFF, 0x00, 0, 0xFF, 0x00, 0]

example : temp_decode frame_threshold = .fault (-8000000) "Unknown hardware error" := by decide
example : temp_decode frame_battery = .fault 16364 "Battery empty" := by decide
example : temp_decode frame_unknown = .fault 99999 "Unknown hardware error" := by decide

/-- The exponent field exactly as `temp_decode` computes it:
`((~b3 & 0xFF) >> 3) - 15`. -/
def frame_exponent (r : List ℕ) : ℤ := (((invByte (r.getD 3 0)) >>> 3 : ℕ) : ℤ) - 15

/-- The source-shaped exponent equals its arithmetic reading. -/
theorem frame_exponent_eq (r : List ℕ) (hlen : r.length = 9) (hb : ∀ b ∈ r, b < 256) :
    frame_exponent r = exponent_arith (r.getD 3 0) := by
  have h3 : r.getD 3 0 < 256 := getD_lt_of_forall r hb 3 (by omega)
  unfold frame_exponent exponent_arith invByte
  rw [Nat.mod_eq_of_lt h3, Nat.shiftRight_eq_div_pow]

/-- The base of the decoded quotient is positive. -/
theorem ten_zpow_pos (e : ℤ) : 0 < (10 : ℚ) ^ e := zpow_pos (by norm_num) e

/-- A decoded reading is negative exactly when its signed mantissa is. -/
theorem reading_of_neg_iff (p : ℕ) (e : ℤ) :
    reading_of p e < 0 ↔ sign_extended p + 0x02000000 < 0 := by
  unfold reading_of
  rw [div_neg_iff]
  have h10 := ten_zpow_pos e
  constructor
  · rintro (⟨_, h⟩ | ⟨h, _⟩)
    · exact absurd h (not_lt_of_gt h10)
    · exact_mod_cast h
  · intro h
    exact Or.inr ⟨by exact_mod_cast h, h10⟩

/-- A decoded reading with positive signed mantissa is positive. -/
theorem reading_of_pos (p : ℕ) (e : ℤ) (h : 0 < sign_extended p + 0x02000000) :
    0 < reading_of p e :=
  div_pos (by exact_mod_cast h) (ten_zpow_pos e)

/-- `frame_other` (payload 0, exponent −15) decodes to the value
`reading_of 0 (-15)`. -/
theorem temp_decode_frame_other : temp_decode frame_other = .val (reading_of 0 (-15)) := by
  rw [temp_decode_eq_arith frame_other (by decide) (by decide)]
  simp only [temp_decode_arith]
  rw [show payload_arith (frame_other.getD 3 0) (frame_other.getD 4 0)
      (frame_other.getD 6 0) (frame_other.getD 7 0) = 0 from by decide,
    show exponent_arith (frame_other.getD 3 0) = -15 from by decide]
  norm_num

/-- A connected state with one queued command and a float reading stored for
channel A. -/
def state_ok : ProtoState :=
  ⟨[status_entry [0xfe, 0x00, 0x3d]], ⟨1, "ok", .float 21, .int 0⟩⟩

/-- A connected state with an empty command queue. -/
def state_empty_connected : ProtoState := ⟨[], ⟨1, "ok", .int 0, .int 0⟩⟩

/-- A disconnected state with an empty command queue. -/
def state_disconnected : ProtoState := ⟨[], ⟨0, "----", .int 0, .int 0⟩⟩

/-- C1: the fault branch of `temp_decode` opens strictly below the value the
spec equates the threshold with — at payload `125554432` (which is
`92000000 + 0x02000000`, not `100000000 + 0x02000000 = 133554432`) the
decoder already reports a fault, with the negative code `-8000000`. -/
theorem claim1_counterexample :
    temp_decode frame_threshold = .fault (-8000000) "Unknown hardware error"
    ∧ frame_payload frame_threshold = 125554432
    ∧ 125554432 < 100000000 + 0x02000000 := by
  decide

/-- C1 (amended): on every well-formed 9-byte frame `temp_decode` computes
`high = ((~b3 & 0xFF) << 8) | b4`, `low = ((~b6 & 0xFF) << 8) | b7`,
`raw = (high << 16) | low`, `exponent = ((~b3 & 0xFF) >> 3) - 15` and
`payload = raw & 0x07FFFFFF` read arithmetically; it reports a fault with
code `payload - 0x02000000 - 100000000` exactly when `payload ≥ 125554432`
(a threshold that is `92000000 + 0x02000000`, not `100000000 + 0x02000000`),
and otherwise subtracts `0x08000000` exactly when bit `0x04000000` is set and
divides the mantissa by `10^exponent` without truncation. -/
theorem claim1_decode_characterization (r : List ℕ) (hlen : r.length = 9)
    (hb : ∀ b ∈ r, b < 256) : temp_decode r = temp_decode_arith r :=
  temp_decode_eq_arith r hlen hb

/-- C1 witness: the characterization evaluated on the battery-fault frame. -/
theorem claim1_witness : temp_decode frame_battery = temp_decode_arith frame_battery :=
  claim1_decode_characterization frame_battery (by decide) (by decide)

/-- C2: `crc` implements the spec's checksum algorithm (the spec seeds with
`(addr << 8) | data`, the source with `+`; they agree on bytes), and the
known-good vectors `crc 254 0 = 0x3D`, `crc 253 0 = 0x02` are exactly the
third bytes of the two hard-coded request frames. -/
theorem claim2_checksum (addr data : ℕ) (h1 : addr < 256) (h2 : data < 256) :
    crc addr data = checksum_spec addr data
    ∧ crc 254 0 = 0x3D ∧ crc 253 0 = 0x02
    ∧ (status_commands.getD 0 []).getD 2 0 = crc 254 0
    ∧ (status_commands.getD 1 []).getD 2 0 = crc 253 0 := by
  refine ⟨?_, by decide, by decide, by decide, by decide⟩
  unfold crc checksum_spec
  have hseed : (addr <<< 8) ||| data = (addr <<< 8) + data := by
    rw [shiftLeft_lor_eq_add addr data 8 (by omega), Nat.shiftLeft_eq]
  rw [hseed]
  rfl

/-- C2 witness: the checksum statement at the channel-A request bytes. -/
theorem claim2_witness :
    crc 254 0 = checksum_spec 254 0
    ∧ crc 254 0 = 0x3D ∧ crc 253 0 = 0x02
    ∧ (status_commands.getD 0 []).getD 2 0 = crc 254 0
    ∧ (status_commands.getD 1 []).getD 2 0 = crc 253 0 :=
  claim2_checksum 254 0 (by decide) (by decide)

/-- C3: on a fault reply the handler does NOT set the status to the fault
message, and it does NOT leave the channel temperature unchanged: with the
decode error swallowed by `@catch`, `processBinary` stores `None` into the
addressed channel and never touches `status`. -/
theorem claim3_counterexample :
    (processBinary state_ok frame_battery).object.status ≠ "Battery empty"
    ∧ (processBinary state_ok frame_battery).object.status = state_ok.object.status
    ∧ (processBinary state_ok frame_battery).object.temperatureA
        ≠ state_ok.object.temperatureA := by
  decide

/-- C3 (amended): a reply that decodes to a device fault leaves `status` and
the connection flag unchanged (the fault message is only logged), still pops
the queue head, and overwrites the addressed channel's temperature with the
`None` that the swallowed decode returned. -/
theorem claim3_amended (s : ProtoState) (f : List ℕ) (hq : s.commands ≠ [])
    (c : ℤ) (m : String) (hf : temp_decode f = .fault c m) :
    (processBinary s f).object.status = s.object.status
    ∧ (processBinary s f).object.hw_connected = s.object.hw_connected
    ∧ (processBinary s f).commands = s.commands.tail
    ∧ (f.getD 0 0 = 254 → (processBinary s f).object.temperatureA = PyVal.none)
    ∧ (f.getD 0 0 = 253 → (processBinary s f).object.temperatureB = PyVal.none) := by
  have hc : temp_decode_caught f = PyVal.none := by
    unfold temp_decode_caught
    rw [hf]
  simp only [processBinary]
  rw [hc]
  by_cases h0 : f.getD 0 0 = 254
  · rw [if_pos h0]
    refine ⟨rfl, rfl, trivial, fun _ => rfl, fun h2 => ?_⟩
    rw [h0] at h2
    exact absurd h2 (by decide)
  · rw [if_neg h0]
    by_cases h1 : f.getD 0 0 = 253
    · rw [if_pos h1]
      exact ⟨rfl, rfl, trivial, fun h2 => absurd h2 h0, fun _ => rfl⟩
    · rw [if_neg h1]
      exact ⟨rfl, rfl, trivial, fun h2 => absurd h2 h0, fun h2 => absurd h2 h1⟩

/-- C3 witness: the amended statement on the battery-fault frame in a
connected state with one queued command. -/
theorem claim3_witness :
    (processBinary state_ok frame_battery).object.status = state_ok.object.status
    ∧ (processBinary state_ok frame_battery).object.hw_connected
        = state_ok.object.hw_connected
    ∧ (processBinary state_ok frame_battery).commands = state_ok.commands.tail
    ∧ (frame_battery.getD 0 0 = 254 →
        (processBinary state_ok frame_battery).object.temperatureA = PyVal.none)
    ∧ (frame_battery.getD 0 0 = 253 →
        (processBinary state_ok frame_battery).object.temperatureB = PyVal.none) :=
  claim3_amended state_ok frame_battery (by decide) 16364 "Battery empty" (by decide)

/-- C4: while connected, a tick on an empty queue refills it with exactly the
two channel poll commands (channel A then channel B), so it is non-empty
immediately after the tick. -/
theorem claim4_refill (s : ProtoState) (h1 : s.commands = [])
    (h2 : s.object.hw_connected ≠ 0) :
    (update s).commands = status_commands.map status_entry
    ∧ (update s).commands.length = 2
    ∧ (update s).commands ≠ [] := by
  unfold update
  rw [if_neg (by simp [h1])]
  simp [h1, status_commands, status_entry]

/-- C4 witness: the refill on a concrete connected, drained state. -/
theorem claim4_witness :
    (update state_empty_connected).commands = status_commands.map status_entry
    ∧ (update state_empty_connected).commands.length = 2
    ∧ (update state_empty_connected).commands ≠ [] :=
  claim4_refill state_empty_connected (by decide) (by decide)

/-- C5: whatever the state held before, `connectionLost` leaves
`hw_connected = 0`, `status = "----"` and both channel temperatures equal to
the `"nan"` sentinel. -/
theorem claim5_disconnect_reset (s : ProtoState) :
    (connectionLost s).object.hw_connected = 0
    ∧ (connectionLost s).object.status = "----"
    ∧ (connectionLost s).object.temperatureA = nan_sentinel
    ∧ (connectionLost s).object.temperatureB = nan_sentinel := by
  unfold connectionLost nan_sentinel
  exact ⟨rfl, rfl, rfl, rfl⟩

/-- C6: a tick while disconnected is not a no-op — on a disconnected state
with an empty queue it appends the two poll commands. -/
theorem claim6_counterexample :
    update state_disconnected ≠ state_disconnected
    ∧ state_disconnected.object.hw_connected = 0
    ∧ state_disconnected.commands = []
    ∧ (update state_disconnected).commands.length = 2 := by
  decide

/-- C6 (amended): while disconnected, a tick sends nothing and leaves the
whole `obj` (DeviceState and connection flag) unchanged, but it appends the
two channel poll commands to the queue on every call. -/
theorem claim6_amended (s : ProtoState) (h : s.object.hw_connected = 0) :
    (update s).object = s.object
    ∧ (update s).commands = s.commands ++ status_commands.map status_entry := by
  unfold update
  rw [if_neg (by simp [h])]
  exact ⟨rfl, rfl⟩

/-- C6 witness: the amended statement on the concrete disconnected state. -/
theorem claim6_witness :
    (update state_disconnected).object = state_disconnected.object
    ∧ (update state_disconnected).commands
        = state_disconnected.commands ++ status_commands.map status_entry :=
  claim6_amended state_disconnected (by decide)

/-- C7: a frame whose payload has the sign bit `0x04000000` set can still
decode to a positive value: payload `0x07000000` gives the positive reading
`16777216 * 10^15`. -/
theorem claim7_counterexample :
    temp_decode frame_bigneg = .val (reading_of 117440512 (-15))
    ∧ 0 < reading_of 117440512 (-15)
    ∧ frame_payload frame_bigneg &&& 0x04000000 ≠ 0 := by
  refine ⟨?_, ?_, by decide⟩
  · rw [temp_decode_eq_arith frame_bigneg (by decide) (by decide)]
    simp only [temp_decode_arith]
    rw [show payload_arith (frame_bigneg.getD 3 0) (frame_bigneg.getD 4 0)
        (frame_bigneg.getD 6 0) (frame_bigneg.getD 7 0) = 117440512 from by decide,
      show exponent_arith (frame_bigneg.getD 3 0) = -15 from by decide]
    norm_num
  · apply reading_of_pos
    norm_num [sign_extended]

/-- C7 (amended): below the fault threshold the decode is a finite value that
is negative exactly when the sign bit `0x04000000` is set AND the payload is
below `0x06000000` (equivalently, the sign-extended mantissa is negative);
a set sign bit alone does not force a negative value. -/
theorem claim7_amended (r : List ℕ) (hlen : r.length = 9) (hb : ∀ b ∈ r, b < 256)
    (hlt : frame_payload r < 125554432) :
    temp_decode r = .val (reading_of (frame_payload r) (frame_exponent r))
    ∧ (reading_of (frame_payload r) (frame_exponent r) < 0
        ↔ frame_payload r &&& 0x04000000 ≠ 0 ∧ frame_payload r < 0x06000000) := by
  have hp := frame_payload_eq r hlen hb
  have he := frame_exponent_eq r hlen hb
  constructor
  · rw [temp_decode_eq_arith r hlen hb]
    simp only [temp_decode_arith]
    rw [← hp, ← he, if_neg (by omega)]
  · rw [reading_of_neg_iff, show (0x04000000 : ℕ) = 2 ^ 26 from by norm_num,
      and_two_pow_ne_zero_iff]
    unfold sign_extended
    by_cases hbit : frame_payload r / 2 ^ 26 % 2 = 1
    · rw [if_pos hbit]
      constructor
      · intro h
        exact ⟨hbit, by omega⟩
      · rintro ⟨_, h⟩
        omega
    · rw [if_neg hbit]
      constructor
      · intro h
        omega
      · rintro ⟨h1, _⟩
        exact absurd h1 hbit

/-- C7 witness: the amended statement on the frame with payload
`0x04000000`, whose reading is negative. -/
theorem claim7_witness :
    temp_decode frame_neg = .val (reading_of (frame_payload frame_neg) (frame_exponent frame_neg))
    ∧ (reading_of (frame_payload frame_neg) (frame_exponent frame_neg) < 0
        ↔ frame_payload frame_neg &&& 0x04000000 ≠ 0 ∧ frame_payload frame_neg < 0x06000000) :=
  claim7_amended frame_neg (by decide) (by decide) (by decide)

/-- C8: the catalogue messages are capitalized in the source: fault 16364
decodes to "Battery empty", not the spec's lowercase "battery empty". -/
theorem claim8_counterexample :
    temp_decode frame_battery = .fault 16364 "Battery empty"
    ∧ temp_decode frame_battery ≠ .fault 16364 "battery empty" := by
  decide

/-- C8 (amended): fault 16364 decodes to `Fault 16364 "Battery empty"`, the
unknown code 99999 decodes to a fault with the generic fallback
"Unknown hardware error", and the catalogue lookup is total — every code
outside the catalogue yields the fallback message. -/
theorem claim8_amended (c : ℤ) (hc : c ∉ ERROR_CODES.map Prod.fst) :
    temp_decode frame_battery = .fault 16364 "Battery empty"
    ∧ temp_decode frame_unknown = .fault 99999 "Unknown hardware error"
    ∧ error_get c = "Unknown hardware error" := by
  refine ⟨by decide, by decide, ?_⟩
  have hnone : ERROR_CODES.lookup c = none := by
    rw [List.lookup_eq_none_iff]
    simp only [ERROR_CODES, List.map_cons, List.map_nil, List.mem_cons,
      List.not_mem_nil, or_false] at hc
    simp [ERROR_CODES, bne_iff_ne]
    tauto
  unfold error_get
  rw [hnone]
  rfl

/-- C8 witness: the amended statement at the uncatalogued code 424242. -/
theorem claim8_witness :
    temp_decode frame_battery = .fault 16364 "Battery empty"
    ∧ temp_decode frame_unknown = .fault 99999 "Unknown hardware error"
    ∧ error_get 424242 = "Unknown hardware error" :=
  claim8_amended 424242 (by decide)

/-- C9: the two decoders disagree on the fault threshold: on the frame with
payload `125554432` the method `temp_decode` reports a fault while the
module-level `value` returns a finite temperature. -/
theorem claim9_counterexample :
    temp_decode frame_threshold = .fault (-8000000) "Unknown hardware error"
    ∧ value frame_threshold = .temp (reading_of 125554432 (-15)) := by
  refine ⟨by decide, ?_⟩
  rw [value_eq_arith frame_threshold (by decide) (by decide)]
  simp only [value_arith]
  rw [show payload_arith (frame_threshold.getD 3 0) (frame_threshold.getD 4 0)
      (frame_threshold.getD 6 0) (frame_threshold.getD 7 0) = 125554432 from by decide,
    show exponent_arith (frame_threshold.getD 3 0) = -15 from by decide]
  norm_num

/-- C9 (amended): the module-level `value` and `temp_decode` agree on every
well-formed frame whose payload is outside `[125554432, 133554432)`: below
`125554432` both produce the same temperature, and at or above
`100000000 + 0x2000000` both take their fault path with the same fault code;
in the gap `temp_decode` faults while `value` returns a finite value. -/
theorem claim9_amended (r : List ℕ) (hlen : r.length = 9) (hb : ∀ b ∈ r, b < 256) :
    (frame_payload r < 125554432 →
      temp_decode r = .val (reading_of (frame_payload r) (frame_exponent r))
      ∧ value r = .temp (reading_of (frame_payload r) (frame_exponent r)))
    ∧ (100000000 + 0x2000000 ≤ frame_payload r →
      temp_decode r = .fault ((frame_payload r : ℤ) - 0x02000000 - 100000000)
          (error_get ((frame_payload r : ℤ) - 0x02000000 - 100000000))
      ∧ value r = .errorBranch ((frame_payload r : ℤ) - 0x02000000 - 100000000)) := by
  have hp := frame_payload_eq r hlen hb
  have he := frame_exponent_eq r hlen hb
  have ht := temp_decode_eq_arith r hlen hb
  have hv := value_eq_arith r hlen hb
  simp only [temp_decode_arith] at ht
  simp only [value_arith] at hv
  rw [← hp, ← he] at ht hv
  constructor
  · intro hlt
    rw [ht, hv, if_neg (by omega), if_pos (by omega)]
    exact ⟨rfl, rfl⟩
  · intro hge
    rw [ht, hv, if_pos (by omega), if_neg (by omega)]
    exact ⟨rfl, rfl⟩

/-- C9 witness: agreement evaluated on the payload-0 frame. -/
theorem claim9_witness :
    temp_decode frame_other = .val (reading_of 0 (-15))
    ∧ value frame_other = .temp (reading_of 0 (-15)) := by
  have h := (claim9_amended frame_other (by decide) (by decide)).1 (by decide)
  rwa [show frame_payload frame_other = 0 from by decide,
    show frame_exponent frame_other = -15 from by decide] at h

/-- C10: a non-fault reply whose leading byte addresses neither channel is
silently discarded: the queue head is popped and the whole `obj`
(temperatures, status, connection flag) is untouched. -/
theorem claim10_discard (s : ProtoState) (f : List ℕ) (hq : s.commands ≠ [])
    (h254 : f.getD 0 0 ≠ 254) (h253 : f.getD 0 0 ≠ 253) (q : ℚ)
    (hv : temp_decode f = .val q) :
    (processBinary s f).commands = s.commands.tail
    ∧ (processBinary s f).object = s.object := by
  simp only [processBinary]
  rw [if_neg h254, if_neg h253]
  exact ⟨trivial, rfl⟩

/-- C10 witness: the discard on the payload-0 frame addressed to byte 100. -/
theorem claim10_witness :
    (processBinary state_ok frame_other).commands = state_ok.commands.tail
    ∧ (processBinary state_ok frame_other).object = state_ok.object :=
  claim10_discard state_ok frame_other (by decide) (by decide) (by decide)
    (reading_of 0 (-15)) temp_decode_frame_other

end GMH
